import Mathlib

/-
Shallow embedding of the scrutiny-chain core: domain types from
crates/common/src/types.rs, the error taxonomy from
crates/scrutiny_chain_common/src/error.rs and
crates/blockchain-core/src/blockchain.rs, the security-analysis engine from
crates/scrutiny_chain_security_analyzer/src/analysis.rs, and the transaction
processor from crates/scrutiny_chain_transaction_analyzers/src/processor.rs.
Rust HashMap String values are modelled by association lists whose observable
content is given by lookup; insert replaces any previous binding of the key,
extend merges a whole map with the incoming map winning on key clashes,
matching HashMap::insert and HashMap::extend. Scanners and analyzers (trait
objects in the source) are modelled as pure functions; wall-clock timestamps
are passed in as parameters.
-/

namespace ScrutinyChain

/-- Blockchain address, common/src/types.rs: a string-backed newtype. -/
structure Address where
  val : String
deriving DecidableEq

/-- Transaction hash, common/src/types.rs: a string-backed newtype. -/
structure Hsh where
  val : String
deriving DecidableEq

/-- Risk level enumeration, common/src/types.rs, declaration order
None, Low, Medium, High, Critical; the derived Ord compares by
declaration order. -/
inductive RiskLevel where
  | None
  | Low
  | Medium
  | High
  | Critical
deriving DecidableEq

/-- Rank of a risk level: its constructor index, which is exactly the order
the derived Rust PartialOrd/Ord instance uses. -/
def RiskLevel.toNat : RiskLevel → Nat
  | .None => 0
  | .Low => 1
  | .Medium => 2
  | .High => 3
  | .Critical => 4

/-- Binary maximum under the RiskLevel ordering. -/
def RiskLevel.max (a b : RiskLevel) : RiskLevel :=
  if a.toNat < b.toNat then b else a

/-- Errors specific to blockchain operations,
blockchain-core/src/blockchain.rs. -/
inductive BlockchainError where
  | ConnectionError (s : String)
  | InvalidBlockHash (s : String)
  | InvalidTransactionHash (s : String)
  | ContractNotFound (s : String)
  | RPCError (s : String)
deriving DecidableEq

/-- Display strings of BlockchainError, from its thiserror attributes. -/
def BlockchainError.display : BlockchainError → String
  | .ConnectionError s => "Node connection error: " ++ s
  | .InvalidBlockHash s => "Invalid block hash: " ++ s
  | .InvalidTransactionHash s => "Invalid transaction hash: " ++ s
  | .ContractNotFound s => "Contract not found at address: " ++ s
  | .RPCError s => "RPC error: " ++ s

/-- The boxed dynamic error payload of Error.Other: either a BlockchainError
(the one downcast target the core performs) or some other dynamic error,
kept as its display string. -/
inductive Boxed where
  | blockchain (e : BlockchainError)
  | foreign (s : String)
deriving DecidableEq

/-- Display of the boxed payload. -/
def Boxed.display : Boxed → String
  | .blockchain e => e.display
  | .foreign s => s

/-- The platform error type, scrutiny_chain_common/src/error.rs. -/
inductive Error where
  | Database (s : String)
  | Blockchain (s : String)
  | SmartContractE (s : String)
  | TransactionE (s : String)
  | Validation (s : String)
  | Network (s : String)
  | Authorization (s : String)
  | NotFound (s : String)
  | Analysis (s : String)
  | MLModel (s : String)
  | DataProcessing (s : String)
  | RateLimit (s : String)
  | Configuration (s : String)
  | Internal (s : String)
  | Other (b : Boxed)
deriving DecidableEq

/-- Display strings of Error, from its thiserror attributes; Other is
transparent. -/
def Error.display : Error → String
  | .Database s => "Database error: " ++ s
  | .Blockchain s => "Blockchain error: " ++ s
  | .SmartContractE s => "Smart contract error: " ++ s
  | .TransactionE s => "Transaction error: " ++ s
  | .Validation s => "Validation error: " ++ s
  | .Network s => "Network error: " ++ s
  | .Authorization s => "Authorization error: " ++ s
  | .NotFound s => "Resource not found: " ++ s
  | .Analysis s => "Analysis error: " ++ s
  | .MLModel s => "ML model error: " ++ s
  | .DataProcessing s => "Data processing error: " ++ s
  | .RateLimit s => "Rate limit exceeded: " ++ s
  | .Configuration s => "Configuration error: " ++ s
  | .Internal s => "Internal error: " ++ s
  | .Other b => b.display

/-- Helper Error.analysis from scrutiny_chain_common/src/error.rs. -/
def Error.analysis (msg : String) : Error := Error.Analysis msg

/-- Model of e.downcast_ref with target type BlockchainError,
scrutiny_chain_common/src/error.rs: only the Other variant downcasts, and
only when the boxed payload is a BlockchainError. -/
def downcastBlockchain : Error → Option BlockchainError
  | .Other (.blockchain e) => some e
  | _ => none

/-- Association-list model of HashMap with String keys. The observable
content is SMap.lookup. -/
abbrev SMap (α : Type) := List (String × α)

/-- The empty map. -/
def SMap.empty {α : Type} : SMap α := []

/-- Lookup of a key, first matching entry. -/
def SMap.lookup {α : Type} : SMap α → String → Option α
  | [], _ => none
  | p :: m, k => if p.1 = k then some p.2 else SMap.lookup m k

/-- Removal of every entry bearing a key. -/
def SMap.erase {α : Type} : SMap α → String → SMap α
  | [], _ => []
  | p :: m, k => if p.1 = k then SMap.erase m k else p :: SMap.erase m k

/-- HashMap::insert: the new binding replaces any previous binding of the
key. -/
def SMap.insert {α : Type} (m : SMap α) (k : String) (v : α) : SMap α :=
  (k, v) :: SMap.erase m k

/-- Entries of a map whose keys do not occur in the map r. -/
def SMap.dropKeysOf {α : Type} (r : SMap α) : SMap α → SMap α
  | [] => []
  | p :: m =>
    if (SMap.lookup r p.1).isNone then p :: SMap.dropKeysOf r m
    else SMap.dropKeysOf r m

/-- HashMap::extend: every binding of the second map is inserted into the
first, so on a key clash the second map wins. -/
def SMap.extend {α : Type} (m r : SMap α) : SMap α :=
  r ++ SMap.dropKeysOf r m

/-- Key list of a map. -/
def SMap.keys {α : Type} (m : SMap α) : List String := m.map Prod.fst

/-- Blockchain transaction, blockchain-core/src/models.rs (u64 fields as Nat,
byte vectors as Nat lists). -/
structure Transaction where
  hash : Hsh
  from_ : Address
  to_ : Option Address
  value : Nat
  gas_price : Nat
  gas_limit : Nat
  nonce : Nat
  data : List Nat
  timestamp : Nat
deriving DecidableEq

/-- Smart contract, blockchain-core/src/models.rs. -/
structure SmartContract where
  address : Address
  bytecode : List Nat
  creator : Address
  creation_tx : String
  storage : SMap (List Nat)
  timestamp : Nat
deriving DecidableEq

/-- Result of a security analysis, blockchain-core/src/models.rs. -/
structure SecurityAnalysis where
  risk_level : RiskLevel
  findings : List String
  metadata : SMap String
deriving DecidableEq

/-- A vulnerability scanner: the scan operation of the VulnerabilityScanner
trait, modelled as a pure function from the address to its result. -/
def Scanner : Type := Address → Except Error (List String)

/-- A transaction analyzer: the analyze operation of the TransactionAnalyzer
trait, modelled as a pure function from the transaction to its result. -/
def Analyzer : Type := Transaction → Except Error (SMap String)

/-- Character-wise lower-casing, str::to_lowercase. -/
def lowerString (s : String) : String := String.mk (s.data.map Char.toLower)

/-- Prefix test on character lists. -/
def isPrefixChars : List Char → List Char → Bool
  | [], _ => true
  | _ :: _, [] => false
  | a :: as, b :: bs => a == b && isPrefixChars as bs

/-- Substring occurrence test on character lists. -/
def containsChars : List Char → List Char → Bool
  | [], pat => pat.isEmpty
  | c :: rest, pat => isPrefixChars pat (c :: rest) || containsChars rest pat

/-- str::contains with a string pattern: substring occurrence. -/
def containsSubstr (s pat : String) : Bool := containsChars s.data pat.data

/-- Keyword set for critical findings, analysis.rs line 183. -/
def critical_keywords : List String := ["critical", "severe", "high risk"]

/-- Keyword set for high findings, analysis.rs line 184. -/
def high_keywords : List String := ["high", "major", "significant"]

/-- Keyword set for medium findings, analysis.rs line 185. -/
def medium_keywords : List String := ["medium", "moderate"]

/-- Keyword set for low findings, analysis.rs line 186. -/
def low_keywords : List String := ["low", "minor", "info"]

/-- Per-finding classification: the body of the loop in
SecurityAnalyzer::calculate_risk_level, analysis.rs lines 190 to 202. -/
def classify_finding (finding : String) : RiskLevel :=
  let finding_lower := lowerString finding
  if critical_keywords.any (fun k => containsSubstr finding_lower k) then
    RiskLevel.Critical
  else if high_keywords.any (fun k => containsSubstr finding_lower k) then
    RiskLevel.High
  else if medium_keywords.any (fun k => containsSubstr finding_lower k) then
    RiskLevel.Medium
  else if low_keywords.any (fun k => containsSubstr finding_lower k) then
    RiskLevel.Low
  else
    RiskLevel.None

/-- SecurityAnalyzer::calculate_risk_level, analysis.rs lines 182 to 210:
fold over the findings keeping the highest per-finding level seen so far. -/
def calculate_risk_level (findings : List String) : RiskLevel :=
  findings.foldl
    (fun highest_risk finding =>
      let risk_level := classify_finding finding
      if highest_risk.toNat < risk_level.toNat then risk_level
      else highest_risk)
    RiskLevel.None

/-- The scanner loop of SecurityAnalyzer::analyze_contract, analysis.rs
lines 137 to 155: scanners run in registration order, findings are
concatenated, the first scan error aborts with the failing index. -/
def run_scanners (scanners : List Scanner) (address : Address) (i : Nat) :
    Except (Nat × Error) (List String) :=
  match scanners with
  | [] => Except.ok []
  | s :: rest =>
    match s address with
    | .error e => Except.error (i, e)
    | .ok scanner_findings =>
      match run_scanners rest address (i + 1) with
      | .error p => Except.error p
      | .ok more => Except.ok (scanner_findings ++ more)

/-- SecurityAnalyzer::analyze_contract, analysis.rs lines 112 to 179. The
two wall-clock timestamp reads are passed in as ts1 (taken before the empty
check) and ts2 (taken after scanning). -/
def analyze_contract (scanners : List Scanner) (ts1 ts2 : Nat)
    (address : Address) : Except Error SecurityAnalysis :=
  let metadata :=
    SMap.insert
      (SMap.insert SMap.empty "scan_timestamp" (toString ts1))
      "scanner_count" (toString scanners.length)
  if scanners.isEmpty then
    Except.ok
      { risk_level := RiskLevel.None
        findings := ["No security scanners configured"]
        metadata := metadata }
  else
    match run_scanners scanners address 0 with
    | .error (i, e) =>
      Except.error
        (Error.analysis
          ("Vulnerability scanner " ++ toString i ++ " failed: "
            ++ e.display))
    | .ok findings =>
      let highest_risk := calculate_risk_level findings
      let metadata2 :=
        SMap.insert
          (SMap.insert SMap.empty "scan_timestamp" (toString ts2))
          "scanner_count" (toString scanners.length)
      Except.ok
        { risk_level := highest_risk
          findings := findings
          metadata := metadata2 }

/-- The analyzer loop of TransactionProcessor::process_transaction,
processor.rs lines 147 to 167: a successful analyzer result map is merged
with extend, a failing analyzer inserts its synthetic error entry, and the
loop always continues. -/
def run_analyzers (analyzers : List Analyzer) (tx : Transaction) (i : Nat)
    (combined_results : SMap String) : SMap String :=
  match analyzers with
  | [] => combined_results
  | a :: rest =>
    let combined2 :=
      match a tx with
      | .ok results => SMap.extend combined_results results
      | .error e =>
        SMap.insert combined_results
          ("analyzer_" ++ toString i ++ "_error")
          ("Analysis failed: " ++ e.display)
    run_analyzers rest tx (i + 1) combined2

/-- TransactionProcessor::process_transaction, processor.rs lines 136
to 176. -/
def process_transaction (analyzers : List Analyzer) (tx : Transaction) :
    Except Error (SMap String) :=
  if analyzers.isEmpty then
    Except.ok (SMap.insert SMap.empty "status" "No analyzers configured")
  else
    Except.ok (run_analyzers analyzers tx 0 SMap.empty)

/-- TransactionProcessor::process_batch, processor.rs lines 189 to 214:
each transaction is processed independently, a per-transaction error is
replaced by a one-entry error map, and entries are keyed by the stringified
transaction hash. -/
def process_batch (analyzers : List Analyzer)
    (transactions : List Transaction) :
    Except Error (SMap (SMap String)) :=
  Except.ok
    (transactions.foldl
      (fun batch_results tx =>
        match process_transaction analyzers tx with
        | .ok results => SMap.insert batch_results tx.hash.val results
        | .error e =>
          SMap.insert batch_results tx.hash.val
            (SMap.insert SMap.empty "error"
              ("Processing failed: " ++ e.display)))
      SMap.empty)

/-- The provided default BlockchainDataProvider::is_contract,
blockchain-core/src/blockchain.rs lines 101 to 127, over an abstract
get_contract implementation. -/
def is_contract (get_contract : Address → Except Error SmartContract)
    (address : Address) : Except Error Bool :=
  match get_contract address with
  | .ok _ => Except.ok true
  | .error e =>
    match downcastBlockchain e with
    | some (.ContractNotFound _) => Except.ok false
    | some _ => Except.error e
    | none => Except.error e

/-- Spec-side helper: the contribution of the analyzer at index i to the
combined map, as the spec describes it: its result map on success, the
single synthetic error entry on failure. -/
def contribution (i : Nat) (r : Except Error (SMap String)) : SMap String :=
  match r with
  | .ok results => results
  | .error e =>
    [("analyzer_" ++ toString i ++ "_error", "Analysis failed: " ++ e.display)]

/-- Spec-side helper: the list of per-analyzer contributions starting at
index i. -/
def contributionsFrom (i : Nat) (analyzers : List Analyzer)
    (tx : Transaction) : List (SMap String) :=
  match analyzers with
  | [] => []
  | a :: rest => contribution i (a tx) :: contributionsFrom (i + 1) rest tx

/-- Spec-side helper: the last element of a list satisfying a predicate. -/
def lastMatch {α : Type} (p : α → Bool) : List α → Option α
  | [] => none
  | x :: xs =>
    match lastMatch p xs with
    | some y => some y
    | none => if p x then some x else none

/-- Spec-side helper: the batch entry recorded for one transaction: the
process result, or the substituted error map when process fails. -/
def batch_entry (analyzers : List Analyzer) (tx : Transaction) :
    SMap String :=
  match process_transaction analyzers tx with
  | .ok results => results
  | .error e =>
    SMap.insert SMap.empty "error" ("Processing failed: " ++ e.display)

/-- Spec-side helper: a security analysis with its scan_timestamp metadata
entry removed, for stating timestamp-insensitive determinism. -/
def strip_timestamp (s : SecurityAnalysis) : SecurityAnalysis :=
  { s with metadata := SMap.erase s.metadata "scan_timestamp" }

/-- Concrete transaction used by closed witness statements (the doc-test
transaction of processor.rs). -/
def tx0 : Transaction :=
  { hash := { val := "0x123" }
    from_ := { val := "0xabc" }
    to_ := some { val := "0xdef" }
    value := 1000
    gas_price := 50
    gas_limit := 21000
    nonce := 5
    data := []
    timestamp := 0 }

/-- Concrete contract used by the is_contract witness (the mock of
blockchain.rs tests). -/
def contract0 : SmartContract :=
  { address := { val := "0xcontract" }
    bytecode := [0, 1, 2]
    creator := { val := "0xabc" }
    creation_tx := "0x123"
    storage := SMap.empty
    timestamp := 0 }

/-- Concrete get_contract used by the is_contract witness: succeeds on the
known contract address, reports ContractNotFound elsewhere. -/
def get_contract0 (address : Address) : Except Error SmartContract :=
  if address.val = "0xcontract" then Except.ok contract0
  else
    Except.error
      (Error.Other (Boxed.blockchain (BlockchainError.ContractNotFound address.val)))

/-- Spec-side helper: the first hit of an option-valued function along a
list. -/
def firstHit {α β : Type} (f : α → Option β) : List α → Option β
  | [] => none
  | x :: xs =>
    match f x with
    | some v => some v
    | none => firstHit f xs

/-- Concrete scanner used by witnesses: succeeds with one benign finding. -/
def scanner_ok_a : Scanner := fun _ => Except.ok ["minor formatting issue"]

/-- Concrete scanner used by witnesses: always fails. -/
def scanner_fail : Scanner := fun _ => Except.error (Error.Internal "scan crashed")

/-- Concrete scanner used by witnesses: succeeds with one informational
finding. -/
def scanner_ok_b : Scanner := fun _ => Except.ok ["info only"]

/-- Concrete scanner used by witnesses: reports a critical finding. -/
def scanner_w1 : Scanner := fun _ => Except.ok ["Critical vulnerability found"]

/-- Concrete scanner used by witnesses: reports a low-risk finding. -/
def scanner_w2 : Scanner := fun _ => Except.ok ["Low risk issue detected"]

/-- Concrete address used by witnesses. -/
def addr0 : Address := { val := "0x123" }

/-- Concrete analyzer used by witnesses: always fails. -/
def analyzer_fail : Analyzer := fun _ => Except.error (Error.Internal "boom")

/-- Concrete analyzer that succeeds and emits the key analyzer_0_error. -/
def analyzer_shadow : Analyzer :=
  fun _ => Except.ok [("analyzer_0_error", "all good")]

/-- Concrete analyzer that succeeds and emits the key analyzer_1_error. -/
def analyzer_key1 : Analyzer :=
  fun _ => Except.ok [("analyzer_1_error", "spurious")]

/-! Helper lemmas about the map model. -/

theorem smap_lookup_erase {α : Type} (m : SMap α) (k k' : String) :
    SMap.lookup (SMap.erase m k) k'
      = if k = k' then none else SMap.lookup m k' := by
  induction m with
  | nil => by_cases h : k = k' <;> simp [SMap.erase, SMap.lookup, h]
  | cons p m ih =>
    by_cases h1 : p.1 = k
    · rw [show SMap.erase (p :: m) k = SMap.erase m k from by
        simp [SMap.erase, h1]]
      rw [ih]
      by_cases h : k = k'
      · rw [if_pos h, if_pos h]
      · rw [if_neg h, if_neg h]
        have hpk' : ¬ p.1 = k' := by rw [h1]; exact h
        rw [show SMap.lookup (p :: m) k' = SMap.lookup m k' from by
          simp [SMap.lookup, hpk']]
    · rw [show SMap.erase (p :: m) k = p :: SMap.erase m k from by
        simp [SMap.erase, h1]]
      by_cases h2 : p.1 = k'
      · have hkk : ¬ k = k' := fun hk => h1 (hk ▸ h2)
        rw [if_neg hkk]
        rw [show SMap.lookup (p :: SMap.erase m k) k' = some p.2 from by
          simp [SMap.lookup, h2]]
        rw [show SMap.lookup (p :: m) k' = some p.2 from by
          simp [SMap.lookup, h2]]
      · rw [show SMap.lookup (p :: SMap.erase m k) k'
              = SMap.lookup (SMap.erase m k) k' from by
          simp [SMap.lookup, h2]]
        rw [ih]
        by_cases h : k = k'
        · rw [if_pos h, if_pos h]
        · rw [if_neg h, if_neg h]
          rw [show SMap.lookup (p :: m) k' = SMap.lookup m k' from by
            simp [SMap.lookup, h2]]

theorem smap_lookup_insert {α : Type} (m : SMap α) (k : String) (v : α)
    (k' : String) :
    SMap.lookup (SMap.insert m k v) k'
      = if k = k' then some v else SMap.lookup m k' := by
  by_cases h : k = k' <;>
    simp [SMap.insert, SMap.lookup, h, smap_lookup_erase]

theorem smap_lookup_append {α : Type} (l1 l2 : SMap α) (k : String) :
    SMap.lookup (l1 ++ l2) k
      = (SMap.lookup l1 k).orElse (fun _ => SMap.lookup l2 k) := by
  induction l1 with
  | nil => simp [SMap.lookup, Option.orElse]
  | cons p l ih =>
    by_cases h : p.1 = k <;> simp [SMap.lookup, h, ih, Option.orElse]

theorem smap_lookup_dropKeysOf {α : Type} (m r : SMap α) (k : String)
    (h : SMap.lookup r k = none) :
    SMap.lookup (SMap.dropKeysOf r m) k = SMap.lookup m k := by
  induction m with
  | nil => rfl
  | cons p m ih =>
    by_cases hk : p.1 = k
    · have hdrop : (SMap.lookup r p.1).isNone = true := by rw [hk, h]; rfl
      rw [show SMap.dropKeysOf r (p :: m) = p :: SMap.dropKeysOf r m from by
        simp [SMap.dropKeysOf, hdrop]]
      rw [show SMap.lookup (p :: SMap.dropKeysOf r m) k = some p.2 from by
        simp [SMap.lookup, hk]]
      rw [show SMap.lookup (p :: m) k = some p.2 from by
        simp [SMap.lookup, hk]]
    · cases hf : (SMap.lookup r p.1).isNone with
      | false =>
        rw [show SMap.dropKeysOf r (p :: m) = SMap.dropKeysOf r m from by
          simp [SMap.dropKeysOf, hf]]
        rw [ih]
        rw [show SMap.lookup (p :: m) k = SMap.lookup m k from by
          simp [SMap.lookup, hk]]
      | true =>
        rw [show SMap.dropKeysOf r (p :: m) = p :: SMap.dropKeysOf r m from by
          simp [SMap.dropKeysOf, hf]]
        rw [show SMap.lookup (p :: SMap.dropKeysOf r m) k
              = SMap.lookup (SMap.dropKeysOf r m) k from by
          simp [SMap.lookup, hk]]
        rw [ih]
        rw [show SMap.lookup (p :: m) k = SMap.lookup m k from by
          simp [SMap.lookup, hk]]

theorem smap_lookup_extend {α : Type} (m r : SMap α) (k : String) :
    SMap.lookup (SMap.extend m r) k
      = (SMap.lookup r k).orElse (fun _ => SMap.lookup m k) := by
  unfold SMap.extend
  rw [smap_lookup_append]
  cases h : SMap.lookup r k with
  | none => simp [Option.orElse, smap_lookup_dropKeysOf m r k h]
  | some v => simp [Option.orElse]

theorem firstHit_append {α β : Type} (f : α → Option β) (l1 l2 : List α) :
    firstHit f (l1 ++ l2)
      = (firstHit f l1).orElse (fun _ => firstHit f l2) := by
  induction l1 with
  | nil => simp [firstHit, Option.orElse]
  | cons x l ih =>
    cases h : f x <;> simp [firstHit, h, ih, Option.orElse]

theorem option_orElse_assoc {α : Type} (a : Option α)
    (b c : Unit → Option α) :
    (a.orElse b).orElse c = a.orElse (fun _ => (b ()).orElse c) := by
  cases a <;> rfl

/-! Helper lemmas about the RiskLevel maximum. -/

theorem riskLevel_max_none_left (a : RiskLevel) :
    RiskLevel.max RiskLevel.None a = a := by
  cases a <;> decide

theorem riskLevel_max_none_right (a : RiskLevel) :
    RiskLevel.max a RiskLevel.None = a := by
  cases a <;> decide

theorem riskLevel_max_assoc (a b c : RiskLevel) :
    RiskLevel.max (RiskLevel.max a b) c
      = RiskLevel.max a (RiskLevel.max b c) := by
  cases a <;> cases b <;> cases c <;> decide

theorem riskLevel_le_max_left (a b : RiskLevel) :
    a.toNat ≤ (RiskLevel.max a b).toNat := by
  cases a <;> cases b <;> decide

theorem riskLevel_le_max_right (a b : RiskLevel) :
    b.toNat ≤ (RiskLevel.max a b).toNat := by
  cases a <;> cases b <;> decide

theorem riskLevel_max_choice (a b : RiskLevel) :
    RiskLevel.max a b = a ∨ RiskLevel.max a b = b := by
  cases a <;> cases b <;> first | exact Or.inl rfl | exact Or.inr rfl

theorem riskLevel_foldl_max (rs : List RiskLevel) (h : RiskLevel) :
    rs.foldl RiskLevel.max h
      = RiskLevel.max h (rs.foldr RiskLevel.max RiskLevel.None) := by
  induction rs generalizing h with
  | nil =>
    simp only [List.foldl, List.foldr]
    exact (riskLevel_max_none_right h).symm
  | cons r rs ih =>
    simp only [List.foldl, List.foldr]
    rw [ih, riskLevel_max_assoc]

theorem riskLevel_foldr_max_upper (rs : List RiskLevel) (r : RiskLevel)
    (h : r ∈ rs) :
    r.toNat ≤ (rs.foldr RiskLevel.max RiskLevel.None).toNat := by
  induction rs with
  | nil => cases h
  | cons x rs ih =>
    simp only [List.foldr]
    rcases List.mem_cons.mp h with h1 | h1
    · subst h1; exact riskLevel_le_max_left _ _
    · exact le_trans (ih h1) (riskLevel_le_max_right _ _)

theorem riskLevel_foldr_max_mem (rs : List RiskLevel) :
    rs.foldr RiskLevel.max RiskLevel.None = RiskLevel.None
      ∨ rs.foldr RiskLevel.max RiskLevel.None ∈ rs := by
  induction rs with
  | nil => left; rfl
  | cons x rs ih =>
    simp only [List.foldr]
    rcases riskLevel_max_choice x (rs.foldr RiskLevel.max RiskLevel.None)
      with h | h
    · right; rw [h]; exact List.mem_cons_self _ _
    · rcases ih with h1 | h1
      · left; rw [h, h1]
      · right; rw [h]; exact List.mem_cons_of_mem _ h1

theorem calculate_risk_level_eq_foldr (findings : List String) :
    calculate_risk_level findings
      = (findings.map classify_finding).foldr RiskLevel.max RiskLevel.None := by
  have hstep :
      calculate_risk_level findings
        = (findings.map classify_finding).foldl RiskLevel.max
            RiskLevel.None := by
    rw [List.foldl_map]
    rfl
  rw [hstep, riskLevel_foldl_max, riskLevel_max_none_left]

/-- C1: the derived risk level equals the maximum, under the RiskLevel
ordering, of the per-finding keyword-implied levels given by
classify_finding (lower-case, four keyword sets checked most severe first,
no match giving None); an empty finding list yields None. -/
theorem calculate_risk_level_is_max (findings : List String) :
    calculate_risk_level findings
        = (findings.map classify_finding).foldr RiskLevel.max RiskLevel.None
      ∧ (∀ f ∈ findings,
          (classify_finding f).toNat ≤ (calculate_risk_level findings).toNat)
      ∧ (calculate_risk_level findings = RiskLevel.None
          ∨ calculate_risk_level findings ∈ findings.map classify_finding)
      ∧ calculate_risk_level [] = RiskLevel.None := by
  refine ⟨calculate_risk_level_eq_foldr findings, ?_, ?_, rfl⟩
  · intro f hf
    rw [calculate_risk_level_eq_foldr]
    exact riskLevel_foldr_max_upper _ _ (List.mem_map_of_mem _ hf)
  · rw [calculate_risk_level_eq_foldr]
    exact riskLevel_foldr_max_mem _

/-- C1 witness: on the example finding pair the derived level is Critical
and the per-finding level of the second finding is bounded by it. -/
theorem calculate_risk_level_is_max_witness :
    (classify_finding "Low risk issue detected").toNat
        ≤ (calculate_risk_level
            ["Critical vulnerability found", "Low risk issue detected"]).toNat
      ∧ calculate_risk_level
          ["Critical vulnerability found", "Low risk issue detected"]
          = RiskLevel.Critical := by
  constructor
  · exact (calculate_risk_level_is_max
      ["Critical vulnerability found", "Low risk issue detected"]).2.1
      "Low risk issue detected" (by simp)
  · decide

/-- C4: with no scanners registered, analyze_contract succeeds with risk
level None, the single finding string about missing scanners, and metadata
carrying scan_timestamp and a scanner_count of zero. -/
theorem analyze_contract_no_scanners (ts1 ts2 : Nat) (address : Address) :
    ∃ m, analyze_contract [] ts1 ts2 address
        = Except.ok { risk_level := RiskLevel.None,
                      findings := ["No security scanners configured"],
                      metadata := m }
      ∧ SMap.lookup m "scan_timestamp" = some (toString ts1)
      ∧ SMap.lookup m "scanner_count" = some "0" := by
  refine ⟨_, rfl, ?_, ?_⟩
  · rw [smap_lookup_insert]
    rw [if_neg (by decide : ¬ ("scanner_count" : String) = "scan_timestamp")]
    rw [smap_lookup_insert]
    rw [if_pos rfl]
  · rw [smap_lookup_insert]
    rw [if_pos rfl]
    rfl

/-- C7: with no analyzers registered, process_transaction succeeds with the
single-entry status map. -/
theorem process_transaction_no_analyzers (tx : Transaction) :
    process_transaction [] tx
      = Except.ok [("status", "No analyzers configured")] := rfl

/-- C10: synthetic failure entries share the last-write-wins merge with
ordinary output: a later successful analyzer emitting the key
analyzer_0_error replaces the recorded failure of analyzer 0, and a failure
entry replaces an earlier same-named key, so a plugin failure need not stay
visible. -/
theorem process_error_entries_overwritable :
    process_transaction [analyzer_fail, analyzer_shadow] tx0
        = Except.ok [("analyzer_0_error", "all good")]
      ∧ process_transaction [analyzer_key1, analyzer_fail] tx0
        = Except.ok
            [("analyzer_1_error", "Analysis failed: Internal error: boom")] := by
  constructor <;> rfl

theorem run_scanners_first_error (scanners : List Scanner)
    (address : Address) :
    ∀ (start i : Nat) (s : Scanner) (e : Error),
      scanners.get? i = some s →
      s address = Except.error e →
      (∀ j, j < i → ∀ s', scanners.get? j = some s' →
        ∃ fs, s' address = Except.ok fs) →
      run_scanners scanners address start = Except.error (start + i, e) := by
  induction scanners with
  | nil => intro start i s e hi; simp [List.get?] at hi
  | cons s0 rest ih =>
    intro start i s e hi he hprev
    cases i with
    | zero =>
      have hs : s0 = s := by simpa [List.get?] using hi
      rw [show run_scanners (s0 :: rest) address start
            = Except.error (start, e) from by
        simp [run_scanners, hs, he]]
      rfl
    | succ i' =>
      obtain ⟨fs, hfs⟩ := hprev 0 (Nat.succ_pos i') s0 (by simp [List.get?])
      have hrest : run_scanners rest address (start + 1)
          = Except.error (start + 1 + i', e) := by
        refine ih (start + 1) i' s e ?_ he ?_
        · simpa [List.get?] using hi
        · intro j hj s' hs'
          exact hprev (j + 1) (Nat.succ_lt_succ hj) s'
            (by simpa [List.get?] using hs')
      have harith : start + 1 + i' = start + (i' + 1) := by omega
      simp [run_scanners, hfs, hrest, harith]

/-- C2: when the scanner at index i is the first whose scan fails, the whole
analysis fails with an Analysis error naming index i and the underlying
error message, and no report is returned. -/
theorem analyze_contract_fail_fast (scanners : List Scanner)
    (ts1 ts2 : Nat) (address : Address) (i : Nat) (s : Scanner) (e : Error)
    (hi : scanners.get? i = some s)
    (he : s address = Except.error e)
    (hprev : ∀ j, j < i → ∀ s', scanners.get? j = some s' →
      ∃ fs, s' address = Except.ok fs) :
    analyze_contract scanners ts1 ts2 address
      = Except.error (Error.Analysis
          ("Vulnerability scanner " ++ toString i ++ " failed: "
            ++ e.display)) := by
  have hrun : run_scanners scanners address 0 = Except.error (i, e) := by
    have := run_scanners_first_error scanners address 0 i s e hi he hprev
    rwa [Nat.zero_add] at this
  cases scanners with
  | nil => simp [List.get?] at hi
  | cons s0 rest =>
    simp [analyze_contract, hrun, Error.analysis]

/-- C2 witness: with three concrete scanners of which the second fails, the
analysis aborts with the Analysis error naming index 1 and the scanner's
error message. -/
theorem analyze_contract_fail_fast_witness :
    analyze_contract [scanner_ok_a, scanner_fail, scanner_ok_b] 7 9 addr0
      = Except.error (Error.Analysis
          ("Vulnerability scanner " ++ toString 1 ++ " failed: "
            ++ (Error.Internal "scan crashed").display)) := by
  refine analyze_contract_fail_fast [scanner_ok_a, scanner_fail, scanner_ok_b]
    7 9 addr0 1 scanner_fail (Error.Internal "scan crashed") rfl rfl ?_
  intro j hj s' hs'
  have hj0 : j = 0 := by omega
  subst hj0
  have hs : scanner_ok_a = s' := by simpa [List.get?] using hs'
  exact ⟨["minor formatting issue"], by rw [← hs]; rfl⟩

theorem run_analyzers_lookup (tx : Transaction) (k : String) :
    ∀ (analyzers : List Analyzer) (i : Nat) (combined : SMap String),
      SMap.lookup (run_analyzers analyzers tx i combined) k
        = (firstHit (fun c => SMap.lookup c k)
            (contributionsFrom i analyzers tx).reverse).orElse
            (fun _ => SMap.lookup combined k) := by
  intro analyzers
  induction analyzers with
  | nil =>
    intro i combined
    simp [run_analyzers, contributionsFrom, firstHit, Option.orElse]
  | cons a rest ih =>
    intro i combined
    have hstep :
        SMap.lookup
            (match a tx with
              | .ok results => SMap.extend combined results
              | .error e =>
                SMap.insert combined
                  ("analyzer_" ++ toString i ++ "_error")
                  ("Analysis failed: " ++ e.display)) k
          = (SMap.lookup (contribution i (a tx)) k).orElse
              (fun _ => SMap.lookup combined k) := by
      cases h : a tx with
      | ok results => simp [contribution, smap_lookup_extend]
      | error e =>
        rw [smap_lookup_insert]
        by_cases hk : ("analyzer_" ++ toString i ++ "_error") = k <;>
          simp [contribution, SMap.lookup, hk, Option.orElse]
    rw [show run_analyzers (a :: rest) tx i combined
          = run_analyzers rest tx (i + 1)
              (match a tx with
                | .ok results => SMap.extend combined results
                | .error e =>
                  SMap.insert combined
                    ("analyzer_" ++ toString i ++ "_error")
                    ("Analysis failed: " ++ e.display)) from by
      cases h : a tx <;> simp [run_analyzers, h]]
    rw [ih]
    rw [hstep]
    rw [show (contributionsFrom i (a :: rest) tx).reverse
          = (contributionsFrom (i + 1) rest tx).reverse
              ++ [contribution i (a tx)] from by
      simp [contributionsFrom]]
    rw [firstHit_append]
    rw [option_orElse_assoc]
    have hsingle : firstHit (fun c => SMap.lookup c k) [contribution i (a tx)]
        = SMap.lookup (contribution i (a tx)) k := by
      cases h : SMap.lookup (contribution i (a tx)) k <;>
        simp [firstHit, h]
    rw [hsingle]

/-- C3: with a non-empty analyzer list, process_transaction always succeeds;
the value recorded for every key is the one given by the most recent
contribution in registration order, where a failing analyzer at index i
contributes exactly the synthetic entry analyzer_i_error mapping to the
prefixed failure message and a successful analyzer contributes its result
map, so successes merge last-write-wins and failures do not abort the
run. -/
theorem process_transaction_fail_soft (analyzers : List Analyzer)
    (tx : Transaction) (hne : analyzers ≠ []) :
    ∃ m, process_transaction analyzers tx = Except.ok m ∧
      ∀ k, SMap.lookup m k
        = firstHit (fun c => SMap.lookup c k)
            (contributionsFrom 0 analyzers tx).reverse := by
  have hempty : analyzers.isEmpty = false := by
    cases analyzers with
    | nil => exact absurd rfl hne
    | cons a rest => rfl
  refine ⟨run_analyzers analyzers tx 0 SMap.empty, ?_, ?_⟩
  · simp [process_transaction, hempty]
  · intro k
    rw [run_analyzers_lookup]
    cases firstHit (fun c => SMap.lookup c k)
      (contributionsFrom 0 analyzers tx).reverse <;> rfl

/-- C3 witness: a single always-failing analyzer yields a success whose map
records the synthetic analyzer_0_error entry. -/
theorem process_transaction_fail_soft_witness :
    ∃ m, process_transaction [analyzer_fail] tx0 = Except.ok m ∧
      SMap.lookup m "analyzer_0_error"
        = some "Analysis failed: Internal error: boom" := by
  obtain ⟨m, hm, hk⟩ :=
    process_transaction_fail_soft [analyzer_fail] tx0 (by simp)
  exact ⟨m, hm, by rw [hk]; rfl⟩

theorem run_scanners_all_ok (address : Address) :
    ∀ (scanners : List Scanner) (outs : List (List String)) (i : Nat),
      scanners.length = outs.length →
      (∀ p ∈ scanners.zip outs, p.1 address = Except.ok p.2) →
      run_scanners scanners address i = Except.ok outs.flatten := by
  intro scanners
  induction scanners with
  | nil =>
    intro outs i hlen hok
    cases outs with
    | nil => rfl
    | cons o outs => simp at hlen
  | cons s rest ih =>
    intro outs i hlen hok
    cases outs with
    | nil => simp at hlen
    | cons o outs' =>
      have hs : s address = Except.ok o :=
        hok (s, o) (by simp [List.zip_cons_cons])
      have hrest : run_scanners rest address (i + 1)
          = Except.ok outs'.flatten := by
        refine ih outs' (i + 1) (by simpa using hlen) ?_
        intro p hp
        exact hok p (by simp [List.zip_cons_cons, hp])
      simp [run_scanners, hs, hrest]

/-- C5: when every scanner succeeds, analyze_contract succeeds with the
findings of all scanners concatenated in registration order, the risk level
derived from that concatenation, and metadata carrying scan_timestamp and
the scanner count serialized as a string. -/
theorem analyze_contract_all_ok (scanners : List Scanner)
    (outs : List (List String)) (ts1 ts2 : Nat) (address : Address)
    (hne : scanners ≠ [])
    (hlen : scanners.length = outs.length)
    (hok : ∀ p ∈ scanners.zip outs, p.1 address = Except.ok p.2) :
    ∃ m, analyze_contract scanners ts1 ts2 address
        = Except.ok { risk_level := calculate_risk_level outs.flatten,
                      findings := outs.flatten,
                      metadata := m }
      ∧ SMap.lookup m "scan_timestamp" = some (toString ts2)
      ∧ SMap.lookup m "scanner_count" = some (toString scanners.length) := by
  have hempty : scanners.isEmpty = false := by
    cases scanners with
    | nil => exact absurd rfl hne
    | cons s rest => rfl
  have hrun := run_scanners_all_ok address scanners outs 0 hlen hok
  refine ⟨SMap.insert
      (SMap.insert SMap.empty "scan_timestamp" (toString ts2))
      "scanner_count" (toString scanners.length), ?_, ?_, ?_⟩
  · simp [analyze_contract, hempty, hrun]
  · rw [smap_lookup_insert]
    rw [if_neg (by decide : ¬ ("scanner_count" : String) = "scan_timestamp")]
    rw [smap_lookup_insert]
    rw [if_pos rfl]
  · rw [smap_lookup_insert]
    rw [if_pos rfl]

/-- C5 witness: two concrete successful scanners produce the concatenated
findings, the Critical overall level, and a scanner_count of two. -/
theorem analyze_contract_all_ok_witness :
    ∃ m, analyze_contract [scanner_w1, scanner_w2] 3 4 addr0
        = Except.ok { risk_level := RiskLevel.Critical,
                      findings := ["Critical vulnerability found",
                                   "Low risk issue detected"],
                      metadata := m }
      ∧ SMap.lookup m "scanner_count" = some "2" := by
  have hok : ∀ p ∈ ([scanner_w1, scanner_w2] : List Scanner).zip
      [["Critical vulnerability found"], ["Low risk issue detected"]],
      p.1 addr0 = Except.ok p.2 := by
    intro p hp
    simp [List.zip_cons_cons] at hp
    rcases hp with h | h <;> rw [h] <;> rfl
  obtain ⟨m, hm, hts, hc⟩ :=
    analyze_contract_all_ok [scanner_w1, scanner_w2]
      [["Critical vulnerability found"], ["Low risk issue detected"]]
      3 4 addr0 (by simp) rfl hok
  refine ⟨m, ?_, ?_⟩
  · rw [hm]
    have hcrit : calculate_risk_level
        ([["Critical vulnerability found"],
          ["Low risk issue detected"]].flatten) = RiskLevel.Critical := by
      decide
    rw [hcrit]
    rfl
  · exact hc

theorem smap_keys_erase_subset {α : Type} (m : SMap α) (k x : String)
    (h : x ∈ SMap.keys (SMap.erase m k)) : x ∈ SMap.keys m := by
  induction m with
  | nil => exact absurd h (by simp [SMap.erase, SMap.keys])
  | cons p m ih =>
    by_cases h1 : p.1 = k
    · have : x ∈ SMap.keys (SMap.erase m k) := by
        rw [show SMap.erase (p :: m) k = SMap.erase m k from by
          simp [SMap.erase, h1]] at h
        exact h
      exact List.mem_cons_of_mem _ (ih this)
    · rw [show SMap.erase (p :: m) k = p :: SMap.erase m k from by
        simp [SMap.erase, h1]] at h
      rcases List.mem_cons.mp h with h2 | h2

      · exact List.mem_cons.mpr (Or.inl h2)
      · exact List.mem_cons_of_mem _ (ih h2)

theorem smap_keys_erase_not_mem {α : Type} (m : SMap α) (k : String) :
    k ∉ SMap.keys (SMap.erase m k) := by
  induction m with
  | nil => simp [SMap.erase, SMap.keys]
  | cons p m ih =>
    by_cases h1 : p.1 = k
    · rw [show SMap.erase (p :: m) k = SMap.erase m k from by
        simp [SMap.erase, h1]]
      exact ih
    · rw [show SMap.erase (p :: m) k = p :: SMap.erase m k from by
        simp [SMap.erase, h1]]
      intro hmem
      rcases List.mem_cons.mp hmem with h2 | h2
      · exact h1 h2.symm
      · exact ih h2

theorem smap_keys_erase_nodup {α : Type} (m : SMap α) (k : String)
    (h : (SMap.keys m).Nodup) : (SMap.keys (SMap.erase m k)).Nodup := by
  induction m with
  | nil => simp [SMap.erase, SMap.keys]
  | cons p m ih =>
    have htail : (SMap.keys m).Nodup := (List.nodup_cons.mp h).2
    have hhead : p.1 ∉ SMap.keys m := (List.nodup_cons.mp h).1
    by_cases h1 : p.1 = k
    · rw [show SMap.erase (p :: m) k = SMap.erase m k from by
        simp [SMap.erase, h1]]
      exact ih htail
    · rw [show SMap.erase (p :: m) k = p :: SMap.erase m k from by
        simp [SMap.erase, h1]]
      refine List.nodup_cons.mpr ⟨?_, ih htail⟩
      intro hmem
      exact hhead (smap_keys_erase_subset m k p.1 hmem)

theorem smap_keys_insert_nodup {α : Type} (m : SMap α) (k : String) (v : α)
    (h : (SMap.keys m).Nodup) : (SMap.keys (SMap.insert m k v)).Nodup := by
  refine List.nodup_cons.mpr ⟨?_, smap_keys_erase_nodup m k h⟩
  exact smap_keys_erase_not_mem m k

theorem batch_step_eq (analyzers : List Analyzer)
    (b : SMap (SMap String)) (tx : Transaction) :
    (match process_transaction analyzers tx with
      | .ok results => SMap.insert b tx.hash.val results
      | .error e =>
        SMap.insert b tx.hash.val
          (SMap.insert SMap.empty "error"
            ("Processing failed: " ++ e.display)))
      = SMap.insert b tx.hash.val (batch_entry analyzers tx) := by
  cases hpt : process_transaction analyzers tx <;> simp [batch_entry, hpt]

theorem batch_fold_lookup (analyzers : List Analyzer) (h : String) :
    ∀ (txs : List Transaction) (b0 : SMap (SMap String)),
      SMap.lookup
          (txs.foldl
            (fun batch_results tx =>
              match process_transaction analyzers tx with
              | .ok results => SMap.insert batch_results tx.hash.val results
              | .error e =>
                SMap.insert batch_results tx.hash.val
                  (SMap.insert SMap.empty "error"
                    ("Processing failed: " ++ e.display)))
            b0) h
        = match lastMatch (fun tx => tx.hash.val == h) txs with
          | some tx => some (batch_entry analyzers tx)
          | none => SMap.lookup b0 h := by
  intro txs
  induction txs with
  | nil => intro b0; rfl
  | cons tx rest ih =>
    intro b0
    rw [List.foldl_cons]
    rw [batch_step_eq analyzers b0 tx]
    rw [ih]
    cases hlm : lastMatch (fun tx => tx.hash.val == h) rest with
    | some y => simp [lastMatch, hlm]
    | none =>
      rw [smap_lookup_insert]
      by_cases htx : tx.hash.val = h
      · simp [lastMatch, hlm, htx]
      · simp [lastMatch, hlm, htx]

theorem batch_fold_keys_nodup (analyzers : List Analyzer) :
    ∀ (txs : List Transaction) (b0 : SMap (SMap String)),
      (SMap.keys b0).Nodup →
      (SMap.keys
        (txs.foldl
          (fun batch_results tx =>
            match process_transaction analyzers tx with
            | .ok results => SMap.insert batch_results tx.hash.val results
            | .error e =>
              SMap.insert batch_results tx.hash.val
                (SMap.insert SMap.empty "error"
                  ("Processing failed: " ++ e.display)))
          b0)).Nodup := by
  intro txs
  induction txs with
  | nil => intro b0 h; exact h
  | cons tx rest ih =>
    intro b0 h
    rw [List.foldl_cons]
    rw [batch_step_eq analyzers b0 tx]
    exact ih _ (smap_keys_insert_nodup b0 tx.hash.val _ h)

/-- C6: process_batch always succeeds; its report holds one entry per
distinct stringified transaction hash, each entry being the batch_entry of
the last input transaction bearing that hash, where batch_entry substitutes
the single-entry error map when process_transaction fails. -/
theorem process_batch_keyed_by_hash (analyzers : List Analyzer)
    (txs : List Transaction) :
    ∃ b, process_batch analyzers txs = Except.ok b
      ∧ (∀ h, SMap.lookup b h
          = (lastMatch (fun tx => tx.hash.val == h) txs).map
              (batch_entry analyzers))
      ∧ (SMap.keys b).Nodup := by
  refine ⟨_, rfl, ?_, ?_⟩
  · intro h
    rw [batch_fold_lookup]
    cases lastMatch (fun tx => tx.hash.val == h) txs <;> rfl
  · exact batch_fold_keys_nodup analyzers txs SMap.empty
      (by simp [SMap.keys, SMap.empty])

theorem downcastBlockchain_some (e : Error) (be : BlockchainError)
    (h : downcastBlockchain e = some be) :
    e = Error.Other (Boxed.blockchain be) := by
  cases e with
  | Other b =>
    cases b with
    | blockchain e' =>
      have : e' = be := by simpa [downcastBlockchain] using h
      rw [this]
    | foreign s => simp [downcastBlockchain] at h
  | Database s => simp [downcastBlockchain] at h
  | Blockchain s => simp [downcastBlockchain] at h
  | SmartContractE s => simp [downcastBlockchain] at h
  | TransactionE s => simp [downcastBlockchain] at h
  | Validation s => simp [downcastBlockchain] at h
  | Network s => simp [downcastBlockchain] at h
  | Authorization s => simp [downcastBlockchain] at h
  | NotFound s => simp [downcastBlockchain] at h
  | Analysis s => simp [downcastBlockchain] at h
  | MLModel s => simp [downcastBlockchain] at h
  | DataProcessing s => simp [downcastBlockchain] at h
  | RateLimit s => simp [downcastBlockchain] at h
  | Configuration s => simp [downcastBlockchain] at h
  | Internal s => simp [downcastBlockchain] at h

/-- C8: the default is_contract returns true when get_contract succeeds,
returns false when get_contract fails with the contract-not-found
blockchain error, and propagates any other get_contract error unchanged. -/
theorem is_contract_default
    (get_contract : Address → Except Error SmartContract)
    (address : Address) :
    (∀ c, get_contract address = Except.ok c →
        is_contract get_contract address = Except.ok true)
    ∧ (∀ s, get_contract address
          = Except.error
              (Error.Other
                (Boxed.blockchain (BlockchainError.ContractNotFound s))) →
        is_contract get_contract address = Except.ok false)
    ∧ (∀ e, get_contract address = Except.error e →
        (∀ s, e ≠ Error.Other
            (Boxed.blockchain (BlockchainError.ContractNotFound s))) →
        is_contract get_contract address = Except.error e) := by
  refine ⟨?_, ?_, ?_⟩
  · intro c hc
    simp [is_contract, hc]
  · intro s hs
    simp [is_contract, hs, downcastBlockchain]
  · intro e he hnot
    cases hd : downcastBlockchain e with
    | none => simp [is_contract, he, hd]
    | some be =>
      cases be with
      | ContractNotFound s =>
        exact absurd (downcastBlockchain_some e _ hd) (hnot s)
      | ConnectionError s => simp [is_contract, he, hd]
      | InvalidBlockHash s => simp [is_contract, he, hd]
      | InvalidTransactionHash s => simp [is_contract, he, hd]
      | RPCError s => simp [is_contract, he, hd]

/-- C8 witness: against the mock provider, the known contract address maps
to true and an unknown address maps to false. -/
theorem is_contract_default_witness :
    is_contract get_contract0 { val := "0xcontract" } = Except.ok true
    ∧ is_contract get_contract0 { val := "0xother" } = Except.ok false := by
  constructor
  · exact (is_contract_default get_contract0 { val := "0xcontract" }).1
      contract0 (by rfl)
  · exact (is_contract_default get_contract0 { val := "0xother" }).2.1
      "0xother" (by rfl)

/-- C9: with the plugin lists and plugin behavior fixed, analyze_contract is
deterministic up to the scan_timestamp metadata entry (findings, risk level
and all other metadata agree across runs with different wall-clock
readings), and process_transaction on equal input yields equal results. -/
theorem analyze_process_deterministic (scanners : List Scanner)
    (analyzers : List Analyzer) (address : Address) (tx : Transaction)
    (ts1 ts2 ts1' ts2' : Nat) :
    Except.map strip_timestamp (analyze_contract scanners ts1 ts2 address)
        = Except.map strip_timestamp
            (analyze_contract scanners ts1' ts2' address)
      ∧ process_transaction analyzers tx = process_transaction analyzers tx := by
  refine ⟨?_, rfl⟩
  have herase : ∀ ts : Nat,
      SMap.erase
        (SMap.insert
          (SMap.insert SMap.empty "scan_timestamp" (toString ts))
          "scanner_count" (toString scanners.length))
        "scan_timestamp"
      = [("scanner_count", toString scanners.length)] := by
    intro ts
    simp [SMap.insert, SMap.empty, SMap.erase]
  by_cases hem : scanners.isEmpty
  · simp [analyze_contract, hem, Except.map, strip_timestamp, herase]
  · cases hrun : run_scanners scanners address 0 with
    | error p =>
      simp [analyze_contract, hem, hrun, Except.map]
    | ok findings =>
      simp [analyze_contract, hem, hrun, Except.map, strip_timestamp, herase]

end ScrutinyChain
